import Mathlib

/-!
# Submission Evaluation Reconciler — verification development

Shallow embedding of the control-plane component of `eval-in-gke`
(`demo-server/server.js`, `demo-server/utils/dataManager.js`,
`demo-server/utils/submissionResults.js`): the scoring engine
(`calculateScore`), the metrics normalizer (`processSubmissionMetrics`),
the result fetcher (`fetchSubmissionResults`) and the reconciliation
loop (`monitorJobStatuses`).

JavaScript numbers are modelled as exact rationals extended with `NaN`
and the two infinities; IEEE-754 rounding of individual float operations
is idealized away (the properties below are about the structure of the
arithmetic, and every bound proved is robust to that idealization).
Negative zero is identified with zero.
-/

namespace EvalInGke

/-- A JavaScript number as it arises in the scoring arithmetic:
an exact rational, `NaN`, `Infinity` or `-Infinity`. -/
inductive JNum where
  | num (q : ℚ)
  | nan
  | inf
  | ninf
deriving DecidableEq, Repr

/-- A JavaScript value stored in a metric field such as `avg_time`:
a (finite) number, `null`, or `undefined` (field absent). -/
inductive JVal where
  | num (q : ℚ)
  | nullV
  | undef
deriving DecidableEq, Repr

/-- JS `ToNumber` coercion as applied by arithmetic operators:
`Number(null) = 0`, `Number(undefined) = NaN`. -/
def JVal.toNumber : JVal → JNum
  | .num q => .num q
  | .nullV => .num 0
  | .undef => .nan

/-- JS `+` on numbers. -/
def jsAdd : JNum → JNum → JNum
  | .nan, _ => .nan
  | _, .nan => .nan
  | .inf, .ninf => .nan
  | .ninf, .inf => .nan
  | .inf, _ => .inf
  | _, .inf => .inf
  | .ninf, _ => .ninf
  | _, .ninf => .ninf
  | .num a, .num b => .num (a + b)

/-- JS `*` on numbers. -/
def jsMul : JNum → JNum → JNum
  | .nan, _ => .nan
  | _, .nan => .nan
  | .num a, .num b => .num (a * b)
  | .inf, .num b => if 0 < b then .inf else if b < 0 then .ninf else .nan
  | .num a, .inf => if 0 < a then .inf else if a < 0 then .ninf else .nan
  | .ninf, .num b => if 0 < b then .ninf else if b < 0 then .inf else .nan
  | .num a, .ninf => if 0 < a then .ninf else if a < 0 then .inf else .nan
  | .inf, .inf => .inf
  | .inf, .ninf => .ninf
  | .ninf, .inf => .ninf
  | .ninf, .ninf => .inf

/-- JS `/` on numbers (with `0` standing for both IEEE zeros). -/
def jsDiv : JNum → JNum → JNum
  | .nan, _ => .nan
  | _, .nan => .nan
  | .num a, .num b =>
      if b ≠ 0 then .num (a / b)
      else if 0 < a then .inf else if a < 0 then .ninf else .nan
  | .num _, .inf => .num 0
  | .num _, .ninf => .num 0
  | .inf, .num b => if 0 ≤ b then .inf else .ninf
  | .ninf, .num b => if 0 ≤ b then .ninf else .inf
  | .inf, _ => .nan
  | .ninf, _ => .nan

/-- JS `Math.max` (binary). -/
def jsMax : JNum → JNum → JNum
  | .nan, _ => .nan
  | _, .nan => .nan
  | .inf, _ => .inf
  | _, .inf => .inf
  | .ninf, x => x
  | x, .ninf => x
  | .num a, .num b => .num (if a ≤ b then b else a)

/-- JS `Math.min` (binary). -/
def jsMin : JNum → JNum → JNum
  | .nan, _ => .nan
  | _, .nan => .nan
  | .ninf, _ => .ninf
  | _, .ninf => .ninf
  | .inf, x => x
  | x, .inf => x
  | .num a, .num b => .num (if a ≤ b then a else b)

/-- JS `Math.round`: round half toward positive infinity. -/
def jsRound : JNum → JNum
  | .num q => .num ((q + 1/2).floor : ℚ)
  | x => x

/-- One run record of a query, as found in a raw `summary.json`:
`status` plus an execution `time` (`some t` when the JSON value is a
number, `none` when absent or not a number). -/
structure RunRec where
  status : String
  time : Option ℚ
deriving DecidableEq, Repr

/-- A per-query record.  The same shape is used for raw input and for
normalizer output, since `processSubmissionMetrics` mutates the query
objects in place. -/
structure QueryRec where
  status : String
  runs : Option (List RunRec) := none
  avg_time : JVal := .undef
  min_time : JVal := .undef
  max_time : JVal := .undef
  success_rate : JVal := .undef
  correctness_check : Bool := false
deriving DecidableEq, Repr

/-- The `overall` aggregate block added by the normalizer. -/
structure OverallRec where
  total_queries : ℕ
  successful_queries : ℕ
  overall_success_rate : ℚ
  avg_execution_time : JVal
deriving DecidableEq, Repr

/-- A metrics document (raw or normalized).  `queries` is an
association list keyed by query id (`none` when the field is absent);
`status` is the optional top-level status field (used by the
`{ status: "processing" }` marker object the result fetcher returns). -/
structure MetricsRec where
  status : Option String := none
  queries : Option (List (String × QueryRec)) := none
  overall : Option OverallRec := none
deriving DecidableEq, Repr

/-- Normalization of one query record
(`processSubmissionMetrics`, inner `forEach` body): when the query
status is `success` and there is at least one run, aggregate the runs
whose own status is `success` and whose time is numeric (leaving the
time fields untouched when there is no such run) and set
`correctness_check` to whether every run succeeded; otherwise null out
the numeric fields and fail the correctness check. -/
def processQuery (q : QueryRec) : QueryRec :=
  let runs := q.runs.getD []
  if q.status = "success" ∧ runs.length > 0 then
    let validTimes :=
      (runs.filter fun r => r.status == "success" && r.time.isSome).filterMap (·.time)
    let q' :=
      match validTimes with
      | [] => q
      | t :: ts =>
          { q with
            avg_time := .num ((t :: ts).sum / ((t :: ts).length : ℚ))
            min_time := .num (ts.foldl min t)
            max_time := .num (ts.foldl max t)
            success_rate := .num (((t :: ts).length : ℚ) / (runs.length : ℚ)) }
    { q' with correctness_check := runs.all fun r => r.status == "success" }
  else
    { q with
      avg_time := .nullV, min_time := .nullV, max_time := .nullV
      success_rate := .num 0, correctness_check := false }

/-- `calculateOverallAverageTime`: mean of the `avg_time` values that
are numbers (excluding `null` and `undefined`), or `null` if none. -/
def calculateOverallAverageTime (queryStats : List QueryRec) : JVal :=
  let validTimes := queryStats.filterMap fun q =>
    match q.avg_time with
    | .num t => some t
    | _ => none
  match validTimes with
  | [] => .nullV
  | t :: ts => .num ((t :: ts).sum / ((t :: ts).length : ℚ))

/-- `processSubmissionMetrics`: the metrics normalizer.  Normalizes
every query in place and attaches the `overall` aggregate block; a
document without a `queries` field is returned unchanged. -/
def processSubmissionMetrics (m : MetricsRec) : MetricsRec :=
  match m.queries with
  | none => m
  | some qs =>
      let qs' := qs.map fun e => (e.1, processQuery e.2)
      let queryStats := qs'.map (·.2)
      { m with
        queries := some qs'
        overall := some
          { total_queries := queryStats.length
            successful_queries := (queryStats.filter (·.correctness_check)).length
            overall_success_rate :=
              if queryStats.length > 0 then
                ((queryStats.filter (·.correctness_check)).length : ℚ) / (queryStats.length : ℚ)
              else 0
            avg_execution_time := calculateOverallAverageTime queryStats } }

/-- `baselineMetrics.queries?.[queryId]`: look a query id up in an
optional query map (absent map behaves as an empty one). -/
def lookupQ (qs : Option (List (String × QueryRec))) (k : String) : Option QueryRec :=
  List.lookup k (qs.getD [])

/-- One iteration of the `calculateScore` loop: fold state is
`(totalScore, queryCount)`. -/
def scoreStep (bm : MetricsRec) (acc : JNum × ℕ) (e : String × QueryRec) : JNum × ℕ :=
  match lookupQ bm.queries e.1 with
  | some bq =>
      if e.2.status = "success" ∧ bq.status = "success" then
        let performanceRatio := jsDiv bq.avg_time.toNumber e.2.avg_time.toNumber
        let performanceScore := jsMin (.num 40) (jsMax (.num 0) (jsMul performanceRatio (.num 20)))
        let correctnessScore : JNum := if e.2.correctness_check then .num 60 else .num 0
        (jsAdd acc.1 (jsAdd performanceScore correctnessScore), acc.2 + 1)
      else if e.2.status = "failed" then
        (jsAdd acc.1 (.num 0), acc.2 + 1)
      else acc
  | none =>
      if e.2.status = "failed" then
        (jsAdd acc.1 (.num 0), acc.2 + 1)
      else acc

/-- The scoring engine `calculateScore` (`server.js`).  Either argument
being `null`/`undefined` is modelled by `none`. -/
def calculateScore (submissionMetrics baselineMetrics : Option MetricsRec) : JNum :=
  match submissionMetrics, baselineMetrics with
  | some sm, some bm =>
      let r := (sm.queries.getD []).foldl (scoreStep bm) (.num 0, 0)
      if r.2 > 0 then jsRound (jsDiv r.1 (.num (r.2 : ℚ))) else .num 0
  | _, _ => .num 0

/-! ## Result fetcher (`fetchSubmissionResults`) -/

/-- What `gsutil cat` of the summary file produced: a JSON document
that parses (`parsed`), content that fails `JSON.parse` (`malformed`),
or whitespace-only content (`blank`). -/
inductive SummaryContent where
  | parsed (m : MetricsRec)
  | malformed
  | blank
deriving DecidableEq, Repr

/-- The observable state of the job's object-store prefix:
`listing` is `none` when the `gsutil ls` of the prefix errors and
`some b` when it succeeds with (non)empty output `b`; `summary` is
`none` when the summary file cannot be read; `hasLogs` is whether the
`**/*.log` glob under the prefix matches anything. -/
structure StoreState where
  listing : Option Bool
  summary : Option SummaryContent
  hasLogs : Bool
deriving DecidableEq, Repr

/-- `fetchSubmissionResults` (identical in `dataManager.js` and
`submissionResults.js`): `null` when the prefix listing errors or is
empty; the normalized summary when the summary file reads, is
non-blank and parses; otherwise the `{ status: "processing" }` marker
when log files exist, else `null`. -/
def fetchSubmissionResults (s : StoreState) : Option MetricsRec :=
  match s.listing with
  | none => none
  | some false => none
  | some true =>
      match s.summary with
      | some (.parsed m) => some (processSubmissionMetrics m)
      | _ =>
          if s.hasLogs then
            some { status := some "processing" }
          else
            none

/-- The spec's `ResultOutcome` vocabulary for the fetcher's result. -/
inductive ResultOutcome where
  | ready (m : MetricsRec)
  | processing
  | absent
deriving DecidableEq, Repr

/-- Classify a fetcher return value the way `monitorJobStatuses`
consumes it: a document with a `queries` field is a usable result
(`Ready`), the `{ status: "processing" }` marker is `Processing`, and
anything else — including `null` — is treated as no result (`Absent`). -/
def outcomeOf (r : Option MetricsRec) : ResultOutcome :=
  match r with
  | none => .absent
  | some m =>
      if m.queries.isSome then .ready m
      else if m.status = some "processing" then .processing
      else .absent

/-! ## Reconciliation loop (`monitorJobStatuses`, `dataManager.js`) -/

/-- A submission record, restricted to the fields the reconciliation
loop reads or writes.  `errorCount` is a natural number
(`submission.errorCount || 0` makes an absent counter behave as `0`);
`completedAt` holds the abstract time of the tick that completed it. -/
structure Sub where
  id : String
  jobId : Option String
  status : String
  metrics : Option MetricsRec
  autoScore : Option JNum
  errorCount : ℕ
  completedAt : Option ℕ
  error : Option String
deriving DecidableEq, Repr

/-- A problem record: the job-id → last-known-status map (association
list in object insertion order), the submissions, and the baseline. -/
structure Prob where
  jobStatuses : List (String × String)
  submissions : List Sub
  baselineMetrics : Option MetricsRec
deriving DecidableEq, Repr

/-- JS object assignment `m[k] = v` on an association list: update the
first binding of `k` in place, or append a new one. -/
def setA (l : List (String × String)) (k v : String) : List (String × String) :=
  match l with
  | [] => [(k, v)]
  | e :: rest => if e.1 = k then (k, v) :: rest else e :: setA rest k v

/-- `submissions.find(s => s.jobId === jobId)` followed by in-place
mutation: rewrite the first element satisfying `p`. -/
def updateFirst (p : Sub → Bool) (f : Sub → Sub) : List Sub → List Sub
  | [] => []
  | s :: rest => if p s then f s :: rest else s :: updateFirst p f rest

/-- The job statuses the monitoring loop keeps polling
(`["running", "queued", "processing", "pending", "pending-resources"]`). -/
def activeStatuses : List String :=
  ["running", "queued", "processing", "pending", "pending-resources"]

/-- The branch shared by `completed`-with-results, `not-found`-with-results
and unknown-with-results: store the metrics on the matching submission,
mark it `evaluated`, stamp `completedAt`, score it against the problem
baseline when one exists, and record the job as `completed`. -/
def evalSubmission (j : String) (now : ℕ) (m : MetricsRec) (p : Prob) : Prob :=
  { p with
    submissions := updateFirst (fun s => s.jobId == some j)
      (fun s =>
        { s with
          metrics := some m
          status := "evaluated"
          completedAt := some now
          autoScore :=
            match p.baselineMetrics with
            | some bm => some (calculateScore (some m) (some bm))
            | none => s.autoScore })
      p.submissions
    jobStatuses := setA p.jobStatuses j "completed" }

/-- The mirroring branches (`processing` under `completed`,
`pending-resources`, `pending`, `running`): when the recorded job
status differs from the observed one, record it and copy it onto the
matching submission's status if that too differs. -/
def mirrorStatus (j target : String) (p : Prob) : Prob :=
  if List.lookup j p.jobStatuses ≠ some target then
    { p with
      jobStatuses := setA p.jobStatuses j target
      submissions := updateFirst (fun s => s.jobId == some j)
        (fun s => if s.status == target then s else { s with status := target })
        p.submissions }
  else p

/-- The retry branches: increment the matching submission's error
counter and, once it reaches `maxRetries`, mark submission and job
failed with the given message.  No submission, no effect. -/
def bumpError (j : String) (now : ℕ) (errMsg : String) (maxRetries : ℕ) (p : Prob) : Prob :=
  match p.submissions.find? (fun s => s.jobId == some j) with
  | none => p
  | some s =>
      if s.errorCount + 1 ≥ maxRetries then
        { p with
          submissions := updateFirst (fun s => s.jobId == some j)
            (fun s =>
              { s with
                errorCount := s.errorCount + 1
                status := "failed"
                completedAt := some now
                error := some errMsg })
            p.submissions
          jobStatuses := setA p.jobStatuses j "failed" }
      else
        { p with
          submissions := updateFirst (fun s => s.jobId == some j)
            (fun s => { s with errorCount := s.errorCount + 1 })
            p.submissions }

/-- The final `else` of the status dispatch (an unrecognized or
`unknown` orchestrator status, or `running` with no change): try the
fetcher anyway; evaluate on a usable result, record `processing` on the
marker object (without touching the submission), and otherwise count an
error toward the `"Timeout waiting for results"` failure. -/
def opportunisticFetch (maxRetries : ℕ) (fetch : String → Option MetricsRec)
    (now : ℕ) (p : Prob) (j : String) : Prob :=
  match fetch j with
  | some m =>
      if m.queries.isSome then evalSubmission j now m p
      else if m.status = some "processing" then
        if List.lookup j p.jobStatuses ≠ some "processing" then
          { p with jobStatuses := setA p.jobStatuses j "processing" }
        else p
      else bumpError j now "Timeout waiting for results" maxRetries p
  | none => bumpError j now "Timeout waiting for results" maxRetries p

/-- Processing of one active job inside a monitoring cycle
(`monitorJobStatuses`, per-problem loop body).  `k8s` is the
orchestrator status adapter (`getKubernetesJobStatus`) and `fetch` the
result fetcher, both per job id. -/
def processJob (maxRetries : ℕ) (k8s : String → String)
    (fetch : String → Option MetricsRec) (now : ℕ) (p : Prob) (j : String) : Prob :=
  let st := k8s j
  if st = "completed" then
    match fetch j with
    | some m =>
        if m.queries.isSome then evalSubmission j now m p
        else mirrorStatus j "processing" p
    | none => mirrorStatus j "processing" p
  else if st = "failed" then
    { p with
      submissions := updateFirst (fun s => s.jobId == some j)
        (fun s =>
          { s with
            status := "failed"
            completedAt := some now
            error := some "Job failed in Kubernetes" })
        p.submissions
      jobStatuses := setA p.jobStatuses j "failed" }
  else if st = "pending-resources" then mirrorStatus j "pending-resources" p
  else if st = "pending" then mirrorStatus j "pending" p
  else if st = "running" then
    if List.lookup j p.jobStatuses ≠ some "running" then mirrorStatus j "running" p
    else opportunisticFetch maxRetries fetch now p j
  else if st = "not-found" then
    match fetch j with
    | some m =>
        if m.queries.isSome then evalSubmission j now m p
        else bumpError j now "Job not found in Kubernetes and no results available" maxRetries p
    | none => bumpError j now "Job not found in Kubernetes and no results available" maxRetries p
  else opportunisticFetch maxRetries fetch now p j

/-- One reconciliation tick over one problem: snapshot the active
entries of the job map, then process each job id in order. -/
def tick (maxRetries : ℕ) (k8s : String → String)
    (fetch : String → Option MetricsRec) (now : ℕ) (p : Prob) : Prob :=
  ((p.jobStatuses.filter fun e => activeStatuses.contains e.2).map Prod.fst).foldl
    (processJob maxRetries k8s fetch now) p

/-- `n` consecutive reconciliation ticks with the same orchestrator and
store observations. -/
def ticksN (maxRetries : ℕ) (k8s : String → String)
    (fetch : String → Option MetricsRec) (now : ℕ) : ℕ → Prob → Prob
  | 0, p => p
  | n + 1, p => ticksN maxRetries k8s fetch now n (tick maxRetries k8s fetch now p)

/-- A run of ticks, each with its own orchestrator view, store view and
time. -/
def runTicks (maxRetries : ℕ)
    (steps : List ((String → String) × (String → Option MetricsRec) × ℕ))
    (p : Prob) : Prob :=
  steps.foldl (fun q step => tick maxRetries step.1 step.2.1 step.2.2 q) p

/-! ## Spec-side scoring formula (for the refinement claim)

The following definitions transcribe the spec's §4.4 wording — per-query
contribution `clamp(0, 40, 20 × baseline.avg_time / submission.avg_time)`
plus a 60-point correctness component, failed queries counting `0` toward
the denominator, final score `round(sum / count)` — to be compared with
`calculateScore`, which is transcribed from the source. -/

/-- `clamp(lo, hi, x)` as the spec words the performance score. -/
def specClamp (lo hi x : JNum) : JNum := jsMin hi (jsMax lo x)

/-- The spec's per-query contribution for a query pair with `success`
status on both sides. -/
def specContribution (bq sq : QueryRec) : JNum :=
  jsAdd
    (specClamp (.num 0) (.num 40)
      (jsMul (.num 20) (jsDiv bq.avg_time.toNumber sq.avg_time.toNumber)))
    (if sq.correctness_check then .num 60 else .num 0)

/-- The (baseline, submission) query pairs that are present in both maps
with `status == success` in both, in submission order. -/
def scoredPairsL (bm : MetricsRec) (l : List (String × QueryRec)) :
    List (QueryRec × QueryRec) :=
  l.filterMap fun e =>
    match lookupQ bm.queries e.1 with
    | some bq =>
        if e.2.status = "success" ∧ bq.status = "success" then some (bq, e.2) else none
    | none => none

/-- The submission queries whose status is `failed` (each contributes 0
but counts toward the denominator). -/
def failedCountL (l : List (String × QueryRec)) : ℕ :=
  (l.filter fun e => e.2.status == "failed").length

/-- Sum of a list of JS numbers. -/
def jsum : List JNum → JNum
  | [] => .num 0
  | x :: l => jsAdd x (jsum l)

/-- The scoring formula as the spec states it: sum the contributions of
the both-`success` pairs, divide by the number of contributing queries
(both-`success` pairs plus `failed` submission queries), round; `0` when
no query contributes. -/
def specScore (sm bm : MetricsRec) : JNum :=
  let entries := sm.queries.getD []
  let contribs := (scoredPairsL bm entries).map fun pr => specContribution pr.1 pr.2
  let count := (scoredPairsL bm entries).length + failedCountL entries
  if count > 0 then jsRound (jsDiv (jsum contribs) (.num (count : ℚ))) else .num 0

/-- No compared query pair produces a `NaN` performance ratio: for every
submission query with a both-`success` baseline counterpart, dividing
the two `avg_time` values yields a non-`NaN` JS number. -/
def ratioDefinedB (sm bm : MetricsRec) : Bool :=
  (sm.queries.getD []).all fun e =>
    match lookupQ bm.queries e.1 with
    | some bq =>
        !(e.2.status == "success" && bq.status == "success")
          || jsDiv bq.avg_time.toNumber e.2.avg_time.toNumber != .nan
    | none => true

/-! ## Reconciler invariants and fixtures -/

/-- A submission in a terminal state. -/
def terminalB (s : Sub) : Bool :=
  s.status == "evaluated" || s.status == "failed"

/-- A terminal submission's job is no longer recorded with an active
status (so the monitoring loop will not pick it up again). -/
def subOkB (js : List (String × String)) (s : Sub) : Bool :=
  if terminalB s then
    match s.jobId with
    | some j =>
        match List.lookup j js with
        | some st => !(activeStatuses.contains st)
        | none => true
    | none => true
  else true

/-- Well-formed problem state: the job map has no duplicate keys (it is
a JS object) and terminal submissions are out of the active job map —
the invariant every reachable state satisfies, since the loop records a
terminal job status in the same step that makes a submission terminal. -/
def Wf (p : Prob) : Prop :=
  (p.jobStatuses.map Prod.fst).Nodup ∧ ∀ s ∈ p.submissions, subOkB p.jobStatuses s = true

/-- Orchestrator oracle that always reports `completed`. -/
def kCompleted : String → String := fun _ => "completed"

/-- Orchestrator oracle that always reports `unknown` (adapter error). -/
def kUnknown : String → String := fun _ => "unknown"

/-- Orchestrator oracle that always reports `queued`. -/
def kQueued : String → String := fun _ => "queued"

/-- Orchestrator oracle that always reports `pending-resources`. -/
def kPendingResources : String → String := fun _ => "pending-resources"

/-- Store oracle with no results at all. -/
def storeAbsent : String → Option MetricsRec := fun _ => none

/-- A freshly running submission. -/
def runningSub : Sub :=
  { id := "s1", jobId := some "job1", status := "running", metrics := none,
    autoScore := none, errorCount := 0, completedAt := none, error := none }

/-- A problem with one running job and its submission. -/
def runningProb : Prob :=
  { jobStatuses := [("job1", "running")], submissions := [runningSub],
    baselineMetrics := none }

/-- `runningProb` after the move to `processing`, with error counter `n`. -/
def processingProbN (n : ℕ) : Prob :=
  { jobStatuses := [("job1", "processing")],
    submissions := [{ runningSub with status := "processing", errorCount := n }],
    baselineMetrics := none }

/-- A successful query with average time `t` and passing correctness
check, as the normalizer produces for an all-`success` run set. -/
def okQuery (t : ℚ) : QueryRec :=
  { status := "success", avg_time := .num t, correctness_check := true }

/-- Scenario D submission metrics: one `failed` query and two `success`
queries with average time `t`. -/
def scenarioDSub (t : ℚ) : MetricsRec :=
  { queries := some [("q1", { status := "failed" }), ("q2", okQuery t), ("q3", okQuery t)] }

/-- Scenario D baseline metrics: the same three queries, all `success`
with the identical average time `t`. -/
def scenarioDBase (t : ℚ) : MetricsRec :=
  { queries := some [("q1", okQuery t), ("q2", okQuery t), ("q3", okQuery t)] }

/-- A raw summary whose only query has status `success` but whose single
run timed out: the normalizer keeps `status == "success"` and leaves
`avg_time` undefined. -/
def rawNoTimeSummary : MetricsRec :=
  { queries := some [("q1", { status := "success", runs := some [⟨"timeout", some 5⟩] })] }

/-- A raw summary whose only query succeeded once in 10 time units. -/
def rawOkSummary : MetricsRec :=
  { queries := some [("q1", { status := "success", runs := some [⟨"success", some 10⟩] })] }

/-- The state reached from `runningProb` when the retry budget
`maxRetries` is exhausted with error counter `ec`: submission and job
marked `failed` with the timeout error message. -/
def timedOutProb (now ec : ℕ) : Prob :=
  { jobStatuses := [("job1", "failed")],
    submissions := [
      { id := "s1", jobId := some "job1", status := "failed", metrics := none,
        autoScore := none, errorCount := ec, completedAt := some now,
        error := some "Timeout waiting for results" }],
    baselineMetrics := none }

/-- Everything one monitoring step must preserve relative to `p`:
well-formedness of the job map, the terminal-coherence invariant, the
freeze of terminal submissions, and untouched bindings for every other
job id. -/
def StepOk (p q : Prob) (j : String) : Prop :=
  (q.jobStatuses.map Prod.fst).Nodup
  ∧ (∀ s' ∈ q.submissions, subOkB q.jobStatuses s' = true)
  ∧ List.Forall₂ (fun s s' => terminalB s = true → s' = s) p.submissions q.submissions
  ∧ ∀ k, k ≠ j → List.lookup k q.jobStatuses = List.lookup k p.jobStatuses

/-- An already-evaluated submission (terminal). -/
def evaluatedSub : Sub :=
  { id := "s0", jobId := some "jobA", status := "evaluated", metrics := none,
    autoScore := some (.num 100), errorCount := 0, completedAt := some 0, error := none }

/-- A second, still-running submission. -/
def secondSub : Sub :=
  { id := "s2", jobId := some "jobB", status := "running", metrics := none,
    autoScore := none, errorCount := 0, completedAt := none, error := none }

/-- A well-formed problem holding one terminal and one active
submission. -/
def wfProb : Prob :=
  { jobStatuses := [("jobA", "completed"), ("jobB", "running")],
    submissions := [evaluatedSub, secondSub],
    baselineMetrics := none }

/-! ## Arithmetic helper lemmas -/

theorem jsAdd_num_zero (x : JNum) : jsAdd x (.num 0) = x := by
  cases x <;> simp [jsAdd]

theorem jsAdd_zero_num (x : JNum) : jsAdd (.num 0) x = x := by
  cases x <;> simp [jsAdd]

theorem jsAdd_assoc (a b c : JNum) : jsAdd (jsAdd a b) c = jsAdd a (jsAdd b c) := by
  cases a <;> cases b <;> cases c <;> simp [jsAdd, add_assoc]

theorem jsMul_comm (a b : JNum) : jsMul a b = jsMul b a := by
  cases a <;> cases b <;> simp [jsMul, mul_comm]

theorem jsMax_num (a b : ℚ) : jsMax (.num a) (.num b) = .num (max a b) := by
  simp [jsMax, max_def]

theorem jsMin_num (a b : ℚ) : jsMin (.num a) (.num b) = .num (min a b) := by
  simp [jsMin, min_def]

theorem jsRound_num (q : ℚ) : jsRound (.num q) = .num ((⌊q + 1/2⌋ : ℤ) : ℚ) := rfl

theorem ratFloor_eq_floor (q : ℚ) : q.floor = ⌊q⌋ := rfl

/-! ## C10 -/

/-- C10: whenever either argument to the scoring engine is missing
(`null`/`undefined`, modelled by `none`), `calculateScore` returns `0`;
the Lean function is total, so no exception is possible. -/
theorem calculateScore_missing_arg_zero :
    (∀ b, calculateScore none b = .num 0) ∧ (∀ s, calculateScore s none = .num 0) := by
  constructor
  · intro b; cases b <;> rfl
  · intro s; cases s <;> rfl

/-! ## C6 -/

/-- C6 counterexample: a job directory holding a malformed summary file
*and* a log file makes `fetchSubmissionResults` return the
`Processing` marker, not the `Absent` outcome produced when no results
exist at all. -/
theorem fetch_malformed_with_logs_is_processing :
    outcomeOf (fetchSubmissionResults ⟨some true, some .malformed, true⟩) = .processing
    ∧ outcomeOf (fetchSubmissionResults ⟨some true, none, false⟩) = .absent
    ∧ ResultOutcome.processing ≠ ResultOutcome.absent := by
  decide

/-- C6 (amended): a summary file that does not parse is handled exactly
like an absent summary file: the fetcher returns the same value as when
the summary is missing, hence `Absent` when no log files exist under the
prefix (retried like a transient failure) and `Processing` when log
files do exist. -/
theorem fetch_malformed_eq_fetch_no_summary :
    ∀ (listing : Option Bool) (logs : Bool),
      fetchSubmissionResults ⟨listing, some .malformed, logs⟩
        = fetchSubmissionResults ⟨listing, none, logs⟩
      ∧ outcomeOf (fetchSubmissionResults ⟨listing, some .malformed, false⟩) = .absent := by
  decide

/-! ## C2 -/

/-- C2 counterexample: in scenario D (one `failed` query, two queries
`success` with timing identical to baseline and passing correctness),
the scoring engine returns `round((0 + 80 + 80)/3) = 53`, not `67`. -/
theorem scenarioD_score_is_53_not_67 :
    calculateScore (some (scenarioDSub 10)) (some (scenarioDBase 10)) = .num 53
    ∧ (JNum.num 53 : JNum) ≠ .num 67 := by
  constructor
  · simp +decide [calculateScore, scenarioDSub, scenarioDBase, okQuery, scoreStep, lookupQ,
      List.lookup, jsDiv, jsMul, jsMin, jsMax, jsAdd, jsRound, JVal.toNumber]
    norm_num [ratFloor_eq_floor]
  · simp

/-- C2 (amended): in scenario D each query that succeeds with timing
identical to baseline contributes `20 + 60 = 80` (equal-to-baseline
performance is worth 20, not 40), so the scoring engine returns
`round((0 + 80 + 80)/3) = 53`. -/
theorem scenarioD_score (t : ℚ) (ht : t ≠ 0) :
    calculateScore (some (scenarioDSub t)) (some (scenarioDBase t)) = .num 53 := by
  have hdiv : t / t = 1 := div_self ht
  simp +decide [calculateScore, scenarioDSub, scenarioDBase, okQuery, scoreStep, lookupQ,
    List.lookup, jsDiv, jsMul, jsMin, jsMax, jsAdd, jsRound, JVal.toNumber, hdiv, ht]
  norm_num [ratFloor_eq_floor]

/-- Witness for `scenarioD_score` at `t = 10`. -/
theorem scenarioD_score_witness :
    (10 : ℚ) ≠ 0
    ∧ calculateScore (some (scenarioDSub 10)) (some (scenarioDBase 10)) = .num 53 :=
  ⟨by norm_num, scenarioD_score 10 (by norm_num)⟩

/-! ## C8 counterexample -/

/-- C8 counterexample: both inputs are produced by the metrics
normalizer, yet the score is `NaN` — not an integer in `[0, 100]`.  The
submission's only query has raw status `success` but no successful
numerically-timed run, so the normalizer leaves its `avg_time`
undefined, and the baseline/submission time ratio is `NaN`. -/
theorem score_nan_on_normalizer_output :
    calculateScore (some (processSubmissionMetrics rawNoTimeSummary))
        (some (processSubmissionMetrics rawOkSummary)) = .nan
    ∧ ∀ n : ℤ, (JNum.nan : JNum) ≠ .num (n : ℚ) := by
  refine ⟨by decide, fun n h => ?_⟩
  cases h

/-! ## C3 counterexample -/

/-- C3 counterexample: a job whose orchestrator-observed status is
`queued` falls into the catch-all fetch branch, and with no results in
the store the tick increments the submission's `errorCount` from 0 to 1
instead of leaving it unchanged. -/
theorem queued_tick_increments_errorCount :
    (tick 5 kQueued storeAbsent 0 runningProb).submissions.map (·.errorCount) = [1]
    ∧ runningProb.submissions.map (·.errorCount) = [0] ∧ (1 : ℕ) ≠ 0 := by
  decide

/-! ## C5 counterexample -/

/-- C5 counterexample: with the orchestrator reporting `completed` on
every tick and the store `Absent`, the first tick moves the submission
to `processing`, but after `maxRetries = 5` further such ticks the
submission is still `processing` — it never becomes `failed`, because
the `completed` branch never touches the retry counter. -/
theorem completed_absent_never_times_out :
    (ticksN 5 kCompleted storeAbsent 0 5
        (tick 5 kCompleted storeAbsent 0 runningProb)).submissions.map (·.status)
      = ["processing"]
    ∧ ("processing" : String) ≠ "failed" := by
  decide

/-! ## C7 -/

/-- C7: the normalizer's `correctness_check` is `true` exactly when the
query's own status is `success`, it has at least one run, and every
run's status is `success`; in particular any non-`success` run (or an
empty/absent run list, or a non-`success` query status) forces
`correctness_check = false`. -/
theorem processQuery_correctness_iff (q : QueryRec) :
    (processQuery q).correctness_check = true ↔
      q.status = "success" ∧ q.runs.getD [] ≠ []
        ∧ ∀ r ∈ q.runs.getD [], r.status = "success" := by
  by_cases h : q.status = "success" ∧ (q.runs.getD []).length > 0
  · have hne : q.runs.getD [] ≠ [] := by
      intro hnil
      rw [hnil] at h
      simp at h
    simp only [processQuery, if_pos h]
    constructor
    · intro hall
      rw [List.all_eq_true] at hall
      exact ⟨h.1, hne, fun r hr => by simpa using hall r hr⟩
    · intro ⟨_, _, hall⟩
      rw [List.all_eq_true]
      intro r hr
      simpa using hall r hr
  · simp only [processQuery, if_neg h]
    simp only [Bool.false_eq_true, false_iff]
    intro ⟨hs, hne, _⟩
    exact h ⟨hs, List.length_pos.mpr hne⟩

/-! ## C1 -/

/-- Unrolling the `calculateScore` loop against the spec's formula:
the fold accumulates exactly the sum of the spec's per-query
contributions over the both-`success` pairs, and counts those pairs
plus the `failed` submission queries. -/
theorem foldl_scoreStep_spec (bm : MetricsRec) (l : List (String × QueryRec)) :
    ∀ t c, l.foldl (scoreStep bm) (t, c)
      = (jsAdd t (jsum ((scoredPairsL bm l).map fun pr => specContribution pr.1 pr.2)),
         c + (scoredPairsL bm l).length + failedCountL l) := by
  induction l with
  | nil =>
      intro t c
      simp [scoredPairsL, failedCountL, jsum, jsAdd_num_zero]
  | cons e l ih =>
      intro t c
      rw [List.foldl_cons]
      rcases hlk : lookupQ bm.queries e.1 with _ | bq
      · by_cases hf : e.2.status = "failed"
        · have hstep : scoreStep bm (t, c) e = (t, c + 1) := by
            simp [scoreStep, hlk, hf, jsAdd_num_zero]
          rw [hstep, ih]
          have hsp : scoredPairsL bm (e :: l) = scoredPairsL bm l := by
            simp [scoredPairsL, List.filterMap_cons, hlk]
          have hfc : failedCountL (e :: l) = failedCountL l + 1 := by
            simp [failedCountL, List.filter_cons, hf]
          rw [hsp, hfc]
          simp only [Prod.mk.injEq]
          exact ⟨by trivial, by omega⟩
        · have hstep : scoreStep bm (t, c) e = (t, c) := by
            simp [scoreStep, hlk, hf]
          rw [hstep, ih]
          have hsp : scoredPairsL bm (e :: l) = scoredPairsL bm l := by
            simp [scoredPairsL, List.filterMap_cons, hlk]
          have hfc : failedCountL (e :: l) = failedCountL l := by
            simp [failedCountL, List.filter_cons, hf]
          rw [hsp, hfc]
      · by_cases hsc : e.2.status = "success" ∧ bq.status = "success"
        · have hnf : e.2.status ≠ "failed" := by
            rw [hsc.1]; decide
          have hstep : scoreStep bm (t, c) e
              = (jsAdd t (specContribution bq e.2), c + 1) := by
            simp [scoreStep, hlk, hsc, specContribution, specClamp, jsMul_comm]
          rw [hstep, ih]
          have hsp : scoredPairsL bm (e :: l) = (bq, e.2) :: scoredPairsL bm l := by
            simp [scoredPairsL, List.filterMap_cons, hlk, hsc]
          have hfc : failedCountL (e :: l) = failedCountL l := by
            simp [failedCountL, List.filter_cons, hnf]
          rw [hsp, hfc]
          simp only [List.map_cons, jsum, List.length_cons]
          rw [jsAdd_assoc]
          simp only [Prod.mk.injEq]
          exact ⟨by trivial, by omega⟩
        · by_cases hf : e.2.status = "failed"
          · have hstep : scoreStep bm (t, c) e = (t, c + 1) := by
              simp [scoreStep, hlk, hsc, hf, jsAdd_num_zero]
            rw [hstep, ih]
            have hsp : scoredPairsL bm (e :: l) = scoredPairsL bm l := by
              simp [scoredPairsL, List.filterMap_cons, hlk, hsc]
            have hfc : failedCountL (e :: l) = failedCountL l + 1 := by
              simp [failedCountL, List.filter_cons, hf]
            rw [hsp, hfc]
            simp only [Prod.mk.injEq]
            exact ⟨by trivial, by omega⟩
          · have hstep : scoreStep bm (t, c) e = (t, c) := by
              simp [scoreStep, hlk, hsc, hf]
            rw [hstep, ih]
            have hsp : scoredPairsL bm (e :: l) = scoredPairsL bm l := by
              simp [scoredPairsL, List.filterMap_cons, hlk, hsc]
            have hfc : failedCountL (e :: l) = failedCountL l := by
              simp [failedCountL, List.filter_cons, hf]
            rw [hsp, hfc]

/-- C1: the scoring engine computes exactly the spec's formula — for
every query pair present in both maps with `success` status on both
sides it adds `clamp(0, 40, 20 × baseline.avg_time / submission.avg_time)`
plus 60 for correctness, every `failed` submission query contributes 0
while counting toward the denominator, and the result is
`round(sum / count)` (or 0 when nothing contributes). -/
theorem calculateScore_eq_specScore (sm bm : MetricsRec) :
    calculateScore (some sm) (some bm) = specScore sm bm := by
  simp only [calculateScore, specScore]
  rw [foldl_scoreStep_spec]
  simp [jsAdd_zero_num]

/-! ## C9 -/

/-- C9: a submission query whose status is neither `success` nor
`failed`, or whose status is `success` but which has no baseline
counterpart with status `success`, is skipped entirely: removing it
from the submission's query map leaves the score unchanged (it joins
neither the sum nor the denominator). -/
theorem calculateScore_skips_noncontributing (st : Option String) (ov : Option OverallRec)
    (bm : MetricsRec) (l1 l2 : List (String × QueryRec)) (qid : String) (q : QueryRec)
    (hq : (q.status ≠ "success" ∧ q.status ≠ "failed")
        ∨ (q.status = "success"
            ∧ ∀ bq, lookupQ bm.queries qid = some bq → bq.status ≠ "success")) :
    calculateScore (some ⟨st, some (l1 ++ (qid, q) :: l2), ov⟩) (some bm)
      = calculateScore (some ⟨st, some (l1 ++ l2), ov⟩) (some bm) := by
  have hstep : ∀ acc, scoreStep bm acc (qid, q) = acc := by
    intro acc
    rcases hlk : lookupQ bm.queries qid with _ | bq
    · rcases hq with ⟨_, hf⟩ | ⟨hs, _⟩
      · simp [scoreStep, hlk, hf]
      · simp [scoreStep, hlk, hs]
    · rcases hq with ⟨hns, hf⟩ | ⟨hs, hb⟩
      · simp [scoreStep, hlk, hns, hf]
      · have hbs := hb bq hlk
        simp [scoreStep, hlk, hs, hbs]
  simp only [calculateScore, Option.getD_some]
  rw [List.foldl_append, List.foldl_append, List.foldl_cons, hstep]

/-- A query with a status the scoring loop does not recognize. -/
def missingQuery : QueryRec := { status := "missing" }

/-- Baseline fixture for the C9 witness. -/
def c9Base : MetricsRec := { queries := some [("q1", okQuery 1)] }

/-- Witness for `calculateScore_skips_noncontributing`: a `missing`
query is dropped without affecting the score. -/
theorem calculateScore_skips_noncontributing_witness :
    ((missingQuery.status ≠ "success" ∧ missingQuery.status ≠ "failed")
      ∨ (missingQuery.status = "success"
          ∧ ∀ bq, lookupQ c9Base.queries "qx" = some bq → bq.status ≠ "success"))
    ∧ calculateScore (some ⟨none, some ([("q1", okQuery 1)] ++ ("qx", missingQuery) :: []), none⟩)
        (some c9Base)
      = calculateScore (some ⟨none, some ([("q1", okQuery 1)] ++ []), none⟩) (some c9Base) :=
  ⟨Or.inl ⟨by decide, by decide⟩,
    calculateScore_skips_noncontributing none none c9Base [("q1", okQuery 1)] [] "qx"
      missingQuery (Or.inl ⟨by decide, by decide⟩)⟩

/-! ## C8 (amended) -/

/-- The clamped performance score is a rational in `[0, 40]` whenever
the performance ratio is not `NaN`. -/
theorem perfScore_bound (r : JNum) (h : r ≠ .nan) :
    ∃ p : ℚ, jsMin (.num 40) (jsMax (.num 0) (jsMul r (.num 20))) = .num p
      ∧ 0 ≤ p ∧ p ≤ 40 := by
  cases r with
  | nan => exact absurd rfl h
  | num q =>
      refine ⟨min 40 (max 0 (q * 20)), ?_,
        le_min (by norm_num) (le_max_left 0 _), min_le_left _ _⟩
      simp [jsMul, jsMax_num, jsMin_num]
  | inf =>
      refine ⟨40, ?_, by norm_num, by norm_num⟩
      norm_num [jsMul, jsMax, jsMin]
  | ninf =>
      refine ⟨0, ?_, le_refl 0, by norm_num⟩
      norm_num [jsMul, jsMax, jsMin]

/-- Fold invariant for the score bound: starting from a nonnegative
total bounded by `100 × count`, the loop keeps the total a rational
number within `100 ×` the final count, provided no compared pair
divides to `NaN`. -/
theorem foldl_scoreStep_bound (bm : MetricsRec) (l : List (String × QueryRec))
    (h : ∀ e ∈ l, (match lookupQ bm.queries e.1 with
        | some bq => !(e.2.status == "success" && bq.status == "success")
            || jsDiv bq.avg_time.toNumber e.2.avg_time.toNumber != JNum.nan
        | none => true) = true) :
    ∀ (tq : ℚ) (c : ℕ), 0 ≤ tq → tq ≤ 100 * c →
      ∃ tq' c', l.foldl (scoreStep bm) (.num tq, c) = (.num tq', c')
        ∧ 0 ≤ tq' ∧ tq' ≤ 100 * c' := by
  induction l with
  | nil => exact fun tq c h0 h1 => ⟨tq, c, rfl, h0, h1⟩
  | cons e l ih =>
      intro tq c h0 h1
      have he := h e (List.mem_cons_self e l)
      have hl := fun e' he' => h e' (List.mem_cons_of_mem e he')
      have hc1 : (100 : ℚ) * c ≤ 100 * (c + 1 : ℕ) := by push_cast; linarith
      rw [List.foldl_cons]
      rcases hlk : lookupQ bm.queries e.1 with _ | bq
      · by_cases hf : e.2.status = "failed"
        · have hstep : scoreStep bm (.num tq, c) e = (.num tq, c + 1) := by
            simp [scoreStep, hlk, hf, jsAdd_num_zero]
          rw [hstep]
          exact ih hl tq (c + 1) h0 (le_trans h1 hc1)
        · have hstep : scoreStep bm (.num tq, c) e = (.num tq, c) := by
            simp [scoreStep, hlk, hf]
          rw [hstep]
          exact ih hl tq c h0 h1
      · by_cases hsc : e.2.status = "success" ∧ bq.status = "success"
        · have hr : jsDiv bq.avg_time.toNumber e.2.avg_time.toNumber ≠ .nan := by
            simp only [hlk, hsc.1, hsc.2] at he
            simpa [bne_iff_ne] using he
          obtain ⟨p, hperf, hp0, hp40⟩ := perfScore_bound _ hr
          have hcorr : ∃ cq : ℚ,
              (if e.2.correctness_check = true then JNum.num 60 else JNum.num 0) = .num cq
                ∧ 0 ≤ cq ∧ cq ≤ 60 := by
            by_cases hcc : e.2.correctness_check = true
            · exact ⟨60, by simp [hcc], by norm_num, le_refl 60⟩
            · exact ⟨0, by simp [hcc], le_refl 0, by norm_num⟩
          obtain ⟨cq, hcorr', hc0, hc60⟩ := hcorr
          have hstep : scoreStep bm (.num tq, c) e = (.num (tq + (p + cq)), c + 1) := by
            simp [scoreStep, hlk, hsc, hperf, hcorr', jsAdd]
          rw [hstep]
          refine ih hl (tq + (p + cq)) (c + 1) (by linarith) ?_
          push_cast
          linarith
        · by_cases hf : e.2.status = "failed"
          · have hstep : scoreStep bm (.num tq, c) e = (.num tq, c + 1) := by
              simp [scoreStep, hlk, hsc, hf, jsAdd_num_zero]
            rw [hstep]
            exact ih hl tq (c + 1) h0 (le_trans h1 hc1)
          · have hstep : scoreStep bm (.num tq, c) e = (.num tq, c) := by
              simp [scoreStep, hlk, hsc, hf]
            rw [hstep]
            exact ih hl tq c h0 h1

/-- C8 (amended): the scoring engine returns an integer in `[0, 100]`
for every pair of metrics inputs in which no compared query pair
produces a `NaN` performance ratio (`ratioDefinedB`).  Normalizer
outputs can violate that side condition — a `success`-status query with
no successfully-timed run keeps an undefined `avg_time` and makes the
score `NaN`. -/
theorem calculateScore_int_bounds (sm bm : MetricsRec) (h : ratioDefinedB sm bm = true) :
    ∃ n : ℤ, calculateScore (some sm) (some bm) = .num (n : ℚ) ∧ 0 ≤ n ∧ n ≤ 100 := by
  have h' := List.all_eq_true.mp h
  obtain ⟨tq, c, heq, h0, h100⟩ :=
    foldl_scoreStep_bound bm (sm.queries.getD []) h' 0 0 le_rfl (by norm_num)
  by_cases hc : 0 < c
  · have hcq : (0 : ℚ) < (c : ℚ) := by exact_mod_cast hc
    refine ⟨⌊tq / c + 1/2⌋, ?_, ?_, ?_⟩
    · simp only [calculateScore, heq]
      rw [if_pos hc]
      simp [jsDiv, hcq.ne', jsRound_num]
    · refine Int.floor_nonneg.mpr ?_
      have : 0 ≤ tq / c := div_nonneg h0 hcq.le
      linarith
    · have hdle : tq / c ≤ 100 := (div_le_iff₀ hcq).mpr (by linarith)
      calc ⌊tq / c + 1/2⌋ ≤ ⌊(100 : ℚ) + 1/2⌋ := Int.floor_le_floor (by linarith)
        _ = 100 := by norm_num
  · refine ⟨0, ?_, le_refl 0, by norm_num⟩
    simp only [calculateScore, heq]
    rw [if_neg hc]
    norm_num

/-- Witness for `calculateScore_int_bounds` on the scenario D metrics. -/
theorem calculateScore_int_bounds_witness :
    ratioDefinedB (scenarioDSub 1) (scenarioDBase 1) = true
    ∧ ∃ n : ℤ,
        calculateScore (some (scenarioDSub 1)) (some (scenarioDBase 1)) = .num (n : ℚ)
        ∧ 0 ≤ n ∧ n ≤ 100 :=
  ⟨by simp [ratioDefinedB, scenarioDSub, scenarioDBase, okQuery, lookupQ, List.lookup,
      jsDiv, JVal.toNumber],
   calculateScore_int_bounds _ _
     (by simp [ratioDefinedB, scenarioDSub, scenarioDBase, okQuery, lookupQ, List.lookup,
        jsDiv, JVal.toNumber])⟩

/-! ## List-update lemmas for the reconciler -/

theorem updateFirst_forall₂ {R : Sub → Sub → Prop} (pred : Sub → Bool) (f : Sub → Sub)
    (l : List Sub) (hrefl : ∀ s, R s s)
    (hf : ∀ s ∈ l, pred s = true → R s (f s)) :
    List.Forall₂ R l (updateFirst pred f l) := by
  induction l with
  | nil => exact List.Forall₂.nil
  | cons s l ih =>
      rw [updateFirst]
      by_cases hp : pred s = true
      · rw [if_pos hp]
        exact List.Forall₂.cons (hf s (List.mem_cons_self s l) hp)
          (List.forall₂_same.mpr fun x _ => hrefl x)
      · rw [if_neg hp]
        exact List.Forall₂.cons (hrefl s)
          (ih fun s' h' hp' => hf s' (List.mem_cons_of_mem s h') hp')

theorem updateFirst_mem {pred : Sub → Bool} {f : Sub → Sub} {l : List Sub} {s' : Sub}
    (h : s' ∈ updateFirst pred f l) :
    s' ∈ l ∨ ∃ s ∈ l, pred s = true ∧ s' = f s := by
  induction l with
  | nil => simp [updateFirst] at h
  | cons s l ih =>
      rw [updateFirst] at h
      by_cases hp : pred s = true
      · rw [if_pos hp] at h
        rcases List.mem_cons.mp h with hh | hh
        · exact Or.inr ⟨s, List.mem_cons_self s l, hp, hh⟩
        · exact Or.inl (List.mem_cons_of_mem s hh)
      · rw [if_neg hp] at h
        rcases List.mem_cons.mp h with hh | hh
        · exact Or.inl (hh ▸ List.mem_cons_self s l)
        · rcases ih hh with hh' | ⟨s0, hs0, hps0, hfs0⟩
          · exact Or.inl (List.mem_cons_of_mem s hh')
          · exact Or.inr ⟨s0, List.mem_cons_of_mem s hs0, hps0, hfs0⟩

/-! ## C3 (amended) -/

/-- The status-mirroring branch changes at most the `status` field of
the first matching submission, and only when it differs. -/
theorem mirrorStatus_forall₂ (j target : String) (p : Prob) :
    List.Forall₂ (fun s s' =>
        s'.id = s.id ∧ s'.jobId = s.jobId ∧ s'.errorCount = s.errorCount
        ∧ s'.metrics = s.metrics ∧ s'.autoScore = s.autoScore
        ∧ s'.completedAt = s.completedAt ∧ s'.error = s.error
        ∧ (s'.status = s.status ∨ s'.status = target)
        ∧ (s.status = target → s' = s))
      p.submissions (mirrorStatus j target p).submissions := by
  have hrefl : ∀ s : Sub,
      s.id = s.id ∧ s.jobId = s.jobId ∧ s.errorCount = s.errorCount
      ∧ s.metrics = s.metrics ∧ s.autoScore = s.autoScore
      ∧ s.completedAt = s.completedAt ∧ s.error = s.error
      ∧ (s.status = s.status ∨ s.status = target)
      ∧ (s.status = target → s = s) :=
    fun s => ⟨rfl, rfl, rfl, rfl, rfl, rfl, rfl, Or.inl rfl, fun _ => rfl⟩
  unfold mirrorStatus
  split
  · apply updateFirst_forall₂ _ _ _ hrefl
    intro s _ _
    dsimp only
    by_cases hs : s.status = target
    · rw [if_pos (beq_iff_eq.mpr hs)]
      exact hrefl s
    · rw [if_neg (by simp [hs])]
      exact ⟨rfl, rfl, rfl, rfl, rfl, rfl, rfl, Or.inr rfl, fun h => absurd h hs⟩
  · exact List.forall₂_same.mpr fun x _ => hrefl x

/-- C3 (amended): when the orchestrator-observed status is
`pending-resources` or `pending`, or is `running` while the recorded
job status differs, the monitoring step only mirrors that status onto
the submissions (and only where it changed), leaving `errorCount` and
every other field untouched.  (An observed `queued` status — and
`running` with no change — instead falls into the opportunistic fetch
branch, which can increment `errorCount`.) -/
theorem pending_running_mirror_frame (maxRetries : ℕ) (k8s : String → String)
    (fetch : String → Option MetricsRec) (now : ℕ) (p : Prob) (j : String)
    (h : k8s j = "pending-resources" ∨ k8s j = "pending"
        ∨ (k8s j = "running" ∧ List.lookup j p.jobStatuses ≠ some "running")) :
    List.Forall₂ (fun s s' =>
        s'.id = s.id ∧ s'.jobId = s.jobId ∧ s'.errorCount = s.errorCount
        ∧ s'.metrics = s.metrics ∧ s'.autoScore = s.autoScore
        ∧ s'.completedAt = s.completedAt ∧ s'.error = s.error
        ∧ (s'.status = s.status ∨ s'.status = k8s j)
        ∧ (s.status = k8s j → s' = s))
      p.submissions (processJob maxRetries k8s fetch now p j).submissions := by
  rcases h with h1 | h2 | ⟨h3, hlk⟩
  · have hp : processJob maxRetries k8s fetch now p j = mirrorStatus j "pending-resources" p := by
      simp [processJob, h1]
    rw [hp, h1]
    exact mirrorStatus_forall₂ j "pending-resources" p
  · have hp : processJob maxRetries k8s fetch now p j = mirrorStatus j "pending" p := by
      simp [processJob, h2]
    rw [hp, h2]
    exact mirrorStatus_forall₂ j "pending" p
  · have hp : processJob maxRetries k8s fetch now p j = mirrorStatus j "running" p := by
      simp [processJob, h3, hlk]
    rw [hp, h3]
    exact mirrorStatus_forall₂ j "running" p

/-- Witness for `pending_running_mirror_frame` on the concrete running
problem with a `pending-resources` orchestrator. -/
theorem pending_running_mirror_frame_witness :
    (kPendingResources "job1" = "pending-resources" ∨ kPendingResources "job1" = "pending"
      ∨ (kPendingResources "job1" = "running"
          ∧ List.lookup "job1" runningProb.jobStatuses ≠ some "running"))
    ∧ List.Forall₂ (fun s s' =>
        s'.id = s.id ∧ s'.jobId = s.jobId ∧ s'.errorCount = s.errorCount
        ∧ s'.metrics = s.metrics ∧ s'.autoScore = s.autoScore
        ∧ s'.completedAt = s.completedAt ∧ s'.error = s.error
        ∧ (s'.status = s.status ∨ s'.status = kPendingResources "job1")
        ∧ (s.status = kPendingResources "job1" → s' = s))
      runningProb.submissions
      (processJob 5 kPendingResources storeAbsent 0 runningProb "job1").submissions :=
  ⟨Or.inl rfl,
    pending_running_mirror_frame 5 kPendingResources storeAbsent 0 runningProb "job1"
      (Or.inl rfl)⟩

/-! ## C5 (amended) -/

/-- One `unknown`-status tick below the retry threshold just increments
the error counter. -/
theorem tick_unknown_below (maxRetries now n : ℕ) (h : n + 1 < maxRetries) :
    tick maxRetries kUnknown storeAbsent now (processingProbN n) = processingProbN (n + 1) := by
  have h1 : tick maxRetries kUnknown storeAbsent now (processingProbN n)
      = bumpError "job1" now "Timeout waiting for results" maxRetries (processingProbN n) := rfl
  rw [h1]
  unfold bumpError
  have hfind : (processingProbN n).submissions.find? (fun s => s.jobId == some "job1")
      = some { runningSub with status := "processing", errorCount := n } := rfl
  rw [hfind]
  dsimp only
  rw [if_neg (by omega)]
  rfl

/-- One `unknown`-status tick that reaches the retry threshold marks
the submission failed with the timeout error. -/
theorem tick_unknown_at (maxRetries now n : ℕ) (h : n + 1 ≥ maxRetries) :
    tick maxRetries kUnknown storeAbsent now (processingProbN n) = timedOutProb now (n + 1) := by
  have h1 : tick maxRetries kUnknown storeAbsent now (processingProbN n)
      = bumpError "job1" now "Timeout waiting for results" maxRetries (processingProbN n) := rfl
  rw [h1]
  unfold bumpError
  have hfind : (processingProbN n).submissions.find? (fun s => s.jobId == some "job1")
      = some { runningSub with status := "processing", errorCount := n } := rfl
  rw [hfind]
  dsimp only
  rw [if_pos (by omega)]
  rfl

/-- Climbing the retry counter: `r` consecutive `unknown`/`Absent`
ticks starting at counter `n` with `n + r = maxRetries` end in the
timed-out state. -/
theorem ticksN_unknown_timeout (maxRetries now : ℕ) :
    ∀ r n, 1 ≤ r → n + r = maxRetries →
      ticksN maxRetries kUnknown storeAbsent now r (processingProbN n)
        = timedOutProb now maxRetries := by
  intro r
  induction r with
  | zero => intro n h1 _; omega
  | succ r ih =>
      intro n _ h2
      rcases Nat.eq_zero_or_pos r with hr | hr
      · subst hr
        show ticksN maxRetries kUnknown storeAbsent now 0
            (tick maxRetries kUnknown storeAbsent now (processingProbN n)) = _
        rw [ticksN, tick_unknown_at maxRetries now n (by omega)]
        have : n + 1 = maxRetries := by omega
        rw [this]
      · show ticksN maxRetries kUnknown storeAbsent now r
            (tick maxRetries kUnknown storeAbsent now (processingProbN n)) = _
        rw [tick_unknown_below maxRetries now n (by omega)]
        exact ih (n + 1) hr (by omega)

/-- C5 (amended): with the orchestrator reporting `completed` and the
store `Absent`, the first tick moves the submission to `processing` and
every further such tick leaves the state unchanged — the retry counter
is never touched on this path, so no timeout failure ever occurs from
it.  The `"Timeout waiting for results"` failure arises on the
catch-all path instead: when the orchestrator returns `unknown` on
`maxRetries` consecutive ticks with an `Absent` store, the submission
ends `failed` with error counter `maxRetries` (`timedOutProb`). -/
theorem completed_processing_and_unknown_timeout :
    (∀ maxRetries now, tick maxRetries kCompleted storeAbsent now runningProb
        = processingProbN 0)
    ∧ (∀ maxRetries now n,
        ticksN maxRetries kCompleted storeAbsent now n (processingProbN 0)
          = processingProbN 0)
    ∧ (∀ maxRetries now, 1 ≤ maxRetries →
        ticksN maxRetries kUnknown storeAbsent now maxRetries (processingProbN 0)
          = timedOutProb now maxRetries) := by
  refine ⟨fun maxRetries now => rfl, fun maxRetries now n => ?_, fun maxRetries now h => ?_⟩
  · induction n with
    | zero => rfl
    | succ n ih =>
        show ticksN maxRetries kCompleted storeAbsent now n
            (tick maxRetries kCompleted storeAbsent now (processingProbN 0)) = _
        have hstay : tick maxRetries kCompleted storeAbsent now (processingProbN 0)
            = processingProbN 0 := rfl
        rw [hstay, ih]
  · exact ticksN_unknown_timeout maxRetries now maxRetries 0 h (by omega)

/-- Witness for `completed_processing_and_unknown_timeout` with
`maxRetries = 5` at time 3. -/
theorem completed_processing_and_unknown_timeout_witness :
    1 ≤ 5
    ∧ ticksN 5 kUnknown storeAbsent 3 5 (processingProbN 0) = timedOutProb 3 5 :=
  ⟨by decide, completed_processing_and_unknown_timeout.2.2 5 3 (by decide)⟩

/-! ## C4: association-map and invariant lemmas -/

theorem lookup_setA_self (l : List (String × String)) (k v : String) :
    List.lookup k (setA l k v) = some v := by
  induction l with
  | nil => simp [setA, List.lookup]
  | cons e l ih =>
      obtain ⟨k', v'⟩ := e
      rw [setA]
      by_cases h : k' = k
      · rw [if_pos h]
        simp [List.lookup]
      · rw [if_neg h]
        have hbeq : (k == k') = false := beq_eq_false_iff_ne.mpr (Ne.symm h)
        simp [List.lookup, hbeq, ih]

theorem lookup_setA_ne (l : List (String × String)) (k v k' : String) (h : k' ≠ k) :
    List.lookup k' (setA l k v) = List.lookup k' l := by
  induction l with
  | nil =>
      have hbeq : (k' == k) = false := beq_eq_false_iff_ne.mpr h
      simp [setA, List.lookup, hbeq]
  | cons e l ih =>
      obtain ⟨k0, v0⟩ := e
      rw [setA]
      by_cases h0 : k0 = k
      · rw [if_pos h0]
        have h1 : (k' == k) = false := beq_eq_false_iff_ne.mpr h
        have h2 : (k' == k0) = false := beq_eq_false_iff_ne.mpr (h0 ▸ h)
        simp [List.lookup, h1, h2]
      · rw [if_neg h0]
        by_cases hk : k' = k0
        · simp [List.lookup, hk]
        · have h2 : (k' == k0) = false := beq_eq_false_iff_ne.mpr hk
          simp [List.lookup, h2, ih]

theorem keys_setA_of_lookup (l : List (String × String)) (k v : String)
    (h : List.lookup k l ≠ none) :
    (setA l k v).map Prod.fst = l.map Prod.fst := by
  induction l with
  | nil => simp [List.lookup] at h
  | cons e l ih =>
      obtain ⟨k0, v0⟩ := e
      rw [setA]
      by_cases h0 : k0 = k
      · rw [if_pos h0]
        simp [h0]
      · rw [if_neg h0]
        have hbeq : (k == k0) = false := beq_eq_false_iff_ne.mpr (Ne.symm h0)
        simp only [List.lookup, hbeq] at h
        simp [ih h]

theorem lookup_eq_of_mem_nodup {l : List (String × String)} {e : String × String}
    (h : e ∈ l) (hnd : (l.map Prod.fst).Nodup) : List.lookup e.1 l = some e.2 := by
  induction l with
  | nil => cases h
  | cons a l ih =>
      rcases List.mem_cons.mp h with rfl | hmem
      · obtain ⟨k, v⟩ := e
        simp [List.lookup]
      · have hnd2 : (a.1 :: l.map Prod.fst).Nodup := by rwa [List.map_cons] at hnd
        have hnd' := List.nodup_cons.mp hnd2
        have hne : e.1 ≠ a.1 := by
          intro he
          exact hnd'.1 (he ▸ List.mem_map_of_mem Prod.fst hmem)
        obtain ⟨k0, v0⟩ := a
        have hbeq : (e.1 == k0) = false := beq_eq_false_iff_ne.mpr hne
        simp only [List.lookup, hbeq]
        exact ih hmem hnd'.2

/-- Transitivity of the terminal-freeze relation along runs. -/
theorem forall₂_frame_trans {l1 l2 l3 : List Sub}
    (h12 : List.Forall₂ (fun s s' => terminalB s = true → s' = s) l1 l2)
    (h23 : List.Forall₂ (fun s s' => terminalB s = true → s' = s) l2 l3) :
    List.Forall₂ (fun s s' => terminalB s = true → s' = s) l1 l3 := by
  induction h12 generalizing l3 with
  | nil => cases h23; exact .nil
  | cons hab h ih =>
      cases h23 with
      | cons hbc h' =>
          refine .cons (fun ht => ?_) (ih h')
          have h1 := hab ht
          have h2 := hbc (by rw [h1]; exact ht)
          rw [h2, h1]

/-- Submissions matching an actively-recorded job id are never
terminal, by the coherence invariant. -/
theorem nonterminal_of_active {p : Prob} {j st0 : String}
    (hcoh : ∀ s ∈ p.submissions, subOkB p.jobStatuses s = true)
    (hjob : List.lookup j p.jobStatuses = some st0)
    (hact : activeStatuses.contains st0 = true) :
    ∀ s ∈ p.submissions, (s.jobId == some j) = true → terminalB s = false := by
  intro s hs hpred
  by_contra hterm
  have hterm' : terminalB s = true := by
    revert hterm
    cases terminalB s <;> simp
  have hok := hcoh s hs
  have hjid : s.jobId = some j := beq_iff_eq.mp hpred
  rw [subOkB, if_pos hterm', hjid] at hok
  dsimp only at hok
  rw [hjob] at hok
  dsimp only at hok
  rw [hact] at hok
  cases hok

/-- Rewriting one job binding preserves `subOkB` for a submission whose
job (when terminal) is a different one. -/
theorem subOk_setA_other {p : Prob} {j v : String} {s' : Sub}
    (hok : subOkB p.jobStatuses s' = true)
    (hnotj : terminalB s' = true → s'.jobId ≠ some j) :
    subOkB (setA p.jobStatuses j v) s' = true := by
  by_cases ht : terminalB s' = true
  · cases hj : s'.jobId with
    | none => rw [subOkB, if_pos ht, hj]
    | some j' =>
        have hne : j' ≠ j := fun he => hnotj ht (by rw [hj, he])
        rw [subOkB, if_pos ht, hj]
        dsimp only
        rw [lookup_setA_ne _ _ _ _ hne]
        rw [subOkB, if_pos ht, hj] at hok
        dsimp only at hok
        exact hok
  · rw [subOkB, if_neg ht]

/-- A submission that is not terminal satisfies `subOkB` against any
job map. -/
theorem subOk_of_not_terminal {js : List (String × String)} {s' : Sub}
    (h : terminalB s' = false) : subOkB js s' = true := by
  rw [subOkB, if_neg (by rw [h]; exact Bool.false_ne_true)]

/-- A newly-terminal submission is coherent when its own job binding is
rewritten to an inactive status. -/
theorem subOk_setA_terminal {js : List (String × String)} {j v : String} {s' : Sub}
    (hj : s'.jobId = some j) (hv : activeStatuses.contains v = false) :
    subOkB (setA js j v) s' = true := by
  by_cases ht : terminalB s' = true
  · rw [subOkB, if_pos ht, hj]
    dsimp only
    rw [lookup_setA_self]
    dsimp only
    rw [hv]
    rfl
  · rw [subOkB, if_neg ht]

/-- Terminal submissions are untouched by any `updateFirst` keyed on an
actively-recorded job id. -/
theorem updateFirst_frame_of_nonterminal {f : Sub → Sub} {l : List Sub} {j : String}
    (hmatch : ∀ s ∈ l, (s.jobId == some j) = true → terminalB s = false) :
    List.Forall₂ (fun s s' => terminalB s = true → s' = s) l
      (updateFirst (fun s => s.jobId == some j) f l) := by
  apply updateFirst_forall₂ _ _ _ (fun s _ => rfl)
  intro s hs hp ht
  rw [hmatch s hs hp] at ht
  cases ht

/-! ## C4: StepOk for every monitoring branch -/

theorem stepOk_id (p : Prob) (j : String)
    (hnd : (p.jobStatuses.map Prod.fst).Nodup)
    (hcoh : ∀ s ∈ p.submissions, subOkB p.jobStatuses s = true) :
    StepOk p p j :=
  ⟨hnd, hcoh, List.forall₂_same.mpr fun _ _ _ => rfl, fun _ _ => rfl⟩

theorem stepOk_upd (p : Prob) (j v st0 : String) (f : Sub → Sub)
    (hnd : (p.jobStatuses.map Prod.fst).Nodup)
    (hcoh : ∀ s ∈ p.submissions, subOkB p.jobStatuses s = true)
    (hjob : List.lookup j p.jobStatuses = some st0)
    (hact : activeStatuses.contains st0 = true)
    (hfs : ∀ s ∈ p.submissions, (s.jobId == some j) = true →
        subOkB (setA p.jobStatuses j v) (f s) = true) :
    StepOk p ⟨setA p.jobStatuses j v,
              updateFirst (fun s => s.jobId == some j) f p.submissions,
              p.baselineMetrics⟩ j := by
  have hmatch := nonterminal_of_active hcoh hjob hact
  refine ⟨?_, ?_, ?_, ?_⟩
  · show ((setA p.jobStatuses j v).map Prod.fst).Nodup
    rw [keys_setA_of_lookup _ _ _ (by rw [hjob]; simp)]
    exact hnd
  · intro s' hs'
    rcases updateFirst_mem hs' with hold | ⟨s, hsmem, hpred, rfl⟩
    · refine subOk_setA_other (hcoh s' hold) ?_
      intro ht hj'
      rw [hmatch s' hold (beq_iff_eq.mpr hj')] at ht
      cases ht
    · exact hfs s hsmem hpred
  · exact updateFirst_frame_of_nonterminal hmatch
  · intro k hk
    exact lookup_setA_ne _ _ _ _ hk

theorem stepOk_subsOnly (p : Prob) (j st0 : String) (f : Sub → Sub)
    (hnd : (p.jobStatuses.map Prod.fst).Nodup)
    (hcoh : ∀ s ∈ p.submissions, subOkB p.jobStatuses s = true)
    (hjob : List.lookup j p.jobStatuses = some st0)
    (hact : activeStatuses.contains st0 = true)
    (hfs : ∀ s ∈ p.submissions, (s.jobId == some j) = true →
        subOkB p.jobStatuses (f s) = true) :
    StepOk p ⟨p.jobStatuses,
              updateFirst (fun s => s.jobId == some j) f p.submissions,
              p.baselineMetrics⟩ j := by
  have hmatch := nonterminal_of_active hcoh hjob hact
  refine ⟨hnd, ?_, updateFirst_frame_of_nonterminal hmatch, fun _ _ => rfl⟩
  intro s' hs'
  rcases updateFirst_mem hs' with hold | ⟨s, hsmem, hpred, rfl⟩
  · exact hcoh s' hold
  · exact hfs s hsmem hpred

theorem stepOk_jsOnly (p : Prob) (j v st0 : String)
    (hnd : (p.jobStatuses.map Prod.fst).Nodup)
    (hcoh : ∀ s ∈ p.submissions, subOkB p.jobStatuses s = true)
    (hjob : List.lookup j p.jobStatuses = some st0)
    (hact : activeStatuses.contains st0 = true) :
    StepOk p ⟨setA p.jobStatuses j v, p.submissions, p.baselineMetrics⟩ j := by
  have hmatch := nonterminal_of_active hcoh hjob hact
  refine ⟨?_, ?_, List.forall₂_same.mpr fun _ _ _ => rfl, fun k hk => lookup_setA_ne _ _ _ _ hk⟩
  · show ((setA p.jobStatuses j v).map Prod.fst).Nodup
    rw [keys_setA_of_lookup _ _ _ (by rw [hjob]; simp)]
    exact hnd
  · intro s' hs'
    refine subOk_setA_other (hcoh s' hs') ?_
    intro ht hj'
    rw [hmatch s' hs' (beq_iff_eq.mpr hj')] at ht
    cases ht

theorem evalSubmission_stepOk (j : String) (now : ℕ) (m : MetricsRec) (p : Prob) (st0 : String)
    (hnd : (p.jobStatuses.map Prod.fst).Nodup)
    (hcoh : ∀ s ∈ p.submissions, subOkB p.jobStatuses s = true)
    (hjob : List.lookup j p.jobStatuses = some st0)
    (hact : activeStatuses.contains st0 = true) :
    StepOk p (evalSubmission j now m p) j := by
  unfold evalSubmission
  apply stepOk_upd p j "completed" st0 _ hnd hcoh hjob hact
  intro s hs hp
  exact subOk_setA_terminal (beq_iff_eq.mp hp) (by decide)

theorem mirrorStatus_stepOk (j target : String) (p : Prob) (st0 : String)
    (hnd : (p.jobStatuses.map Prod.fst).Nodup)
    (hcoh : ∀ s ∈ p.submissions, subOkB p.jobStatuses s = true)
    (hjob : List.lookup j p.jobStatuses = some st0)
    (hact : activeStatuses.contains st0 = true)
    (htarget : ((target == "evaluated") || (target == "failed")) = false) :
    StepOk p (mirrorStatus j target p) j := by
  unfold mirrorStatus
  split
  · apply stepOk_upd p j target st0 _ hnd hcoh hjob hact
    intro s hs hp
    apply subOk_of_not_terminal
    dsimp only
    by_cases hst : (s.status == target) = true
    · rw [if_pos hst]
      exact nonterminal_of_active hcoh hjob hact s hs hp
    · rw [if_neg (by simpa using hst)]
      exact htarget
  · exact stepOk_id p j hnd hcoh

theorem bumpError_stepOk (j : String) (now : ℕ) (msg : String) (maxRetries : ℕ)
    (p : Prob) (st0 : String)
    (hnd : (p.jobStatuses.map Prod.fst).Nodup)
    (hcoh : ∀ s ∈ p.submissions, subOkB p.jobStatuses s = true)
    (hjob : List.lookup j p.jobStatuses = some st0)
    (hact : activeStatuses.contains st0 = true) :
    StepOk p (bumpError j now msg maxRetries p) j := by
  unfold bumpError
  cases hfind : p.submissions.find? (fun s => s.jobId == some j) with
  | none => exact stepOk_id p j hnd hcoh
  | some s =>
      dsimp only
      split
      · apply stepOk_upd p j "failed" st0 _ hnd hcoh hjob hact
        intro s' hs' hp
        exact subOk_setA_terminal (beq_iff_eq.mp hp) (by decide)
      · apply stepOk_subsOnly p j st0 _ hnd hcoh hjob hact
        intro s' hs' hp
        apply subOk_of_not_terminal
        exact nonterminal_of_active hcoh hjob hact s' hs' hp

theorem opportunisticFetch_stepOk (maxRetries : ℕ) (fetch : String → Option MetricsRec)
    (now : ℕ) (p : Prob) (j st0 : String)
    (hnd : (p.jobStatuses.map Prod.fst).Nodup)
    (hcoh : ∀ s ∈ p.submissions, subOkB p.jobStatuses s = true)
    (hjob : List.lookup j p.jobStatuses = some st0)
    (hact : activeStatuses.contains st0 = true) :
    StepOk p (opportunisticFetch maxRetries fetch now p j) j := by
  unfold opportunisticFetch
  cases hf : fetch j with
  | none => exact bumpError_stepOk j now _ maxRetries p st0 hnd hcoh hjob hact
  | some m =>
      dsimp only
      split
      · exact evalSubmission_stepOk j now m p st0 hnd hcoh hjob hact
      · split
        · split
          · exact stepOk_jsOnly p j "processing" st0 hnd hcoh hjob hact
          · exact stepOk_id p j hnd hcoh
        · exact bumpError_stepOk j now _ maxRetries p st0 hnd hcoh hjob hact

/-- Every branch of the per-job monitoring step preserves the
invariants and freezes terminal submissions, provided the job is
actively recorded. -/
theorem processJob_stepOk (maxRetries : ℕ) (k8s : String → String)
    (fetch : String → Option MetricsRec) (now : ℕ) (p : Prob) (j st0 : String)
    (hnd : (p.jobStatuses.map Prod.fst).Nodup)
    (hcoh : ∀ s ∈ p.submissions, subOkB p.jobStatuses s = true)
    (hjob : List.lookup j p.jobStatuses = some st0)
    (hact : activeStatuses.contains st0 = true) :
    StepOk p (processJob maxRetries k8s fetch now p j) j := by
  unfold processJob
  by_cases h1 : k8s j = "completed"
  · rw [if_pos h1]
    cases hf : fetch j with
    | none => exact mirrorStatus_stepOk j "processing" p st0 hnd hcoh hjob hact (by decide)
    | some m =>
        dsimp only
        split
        · exact evalSubmission_stepOk j now m p st0 hnd hcoh hjob hact
        · exact mirrorStatus_stepOk j "processing" p st0 hnd hcoh hjob hact (by decide)
  · rw [if_neg h1]
    by_cases h2 : k8s j = "failed"
    · rw [if_pos h2]
      apply stepOk_upd p j "failed" st0 _ hnd hcoh hjob hact
      intro s hs hp
      exact subOk_setA_terminal (beq_iff_eq.mp hp) (by decide)
    · rw [if_neg h2]
      by_cases h3 : k8s j = "pending-resources"
      · rw [if_pos h3]
        exact mirrorStatus_stepOk j "pending-resources" p st0 hnd hcoh hjob hact (by decide)
      · rw [if_neg h3]
        by_cases h4 : k8s j = "pending"
        · rw [if_pos h4]
          exact mirrorStatus_stepOk j "pending" p st0 hnd hcoh hjob hact (by decide)
        · rw [if_neg h4]
          by_cases h5 : k8s j = "running"
          · rw [if_pos h5]
            by_cases h5a : List.lookup j p.jobStatuses ≠ some "running"
            · rw [if_pos h5a]
              exact mirrorStatus_stepOk j "running" p st0 hnd hcoh hjob hact (by decide)
            · rw [if_neg h5a]
              exact opportunisticFetch_stepOk maxRetries fetch now p j st0 hnd hcoh hjob hact
          · rw [if_neg h5]
            by_cases h6 : k8s j = "not-found"
            · rw [if_pos h6]
              cases hf : fetch j with
              | none =>
                  exact bumpError_stepOk j now _ maxRetries p st0 hnd hcoh hjob hact
              | some m =>
                  dsimp only
                  split
                  · exact evalSubmission_stepOk j now m p st0 hnd hcoh hjob hact
                  · exact bumpError_stepOk j now _ maxRetries p st0 hnd hcoh hjob hact
            · rw [if_neg h6]
              exact opportunisticFetch_stepOk maxRetries fetch now p j st0 hnd hcoh hjob hact

/-- The fold of a monitoring cycle over a duplicate-free list of
actively-recorded job ids preserves the invariants and freezes all
terminal submissions. -/
theorem foldl_processJob_frame (maxRetries : ℕ) (k8s : String → String)
    (fetch : String → Option MetricsRec) (now : ℕ) :
    ∀ (keys : List String) (p : Prob),
      (p.jobStatuses.map Prod.fst).Nodup →
      (∀ s ∈ p.submissions, subOkB p.jobStatuses s = true) →
      keys.Nodup →
      (∀ k ∈ keys, ∃ st, List.lookup k p.jobStatuses = some st
          ∧ activeStatuses.contains st = true) →
      (((keys.foldl (processJob maxRetries k8s fetch now) p).jobStatuses.map Prod.fst).Nodup
        ∧ (∀ s ∈ (keys.foldl (processJob maxRetries k8s fetch now) p).submissions,
            subOkB (keys.foldl (processJob maxRetries k8s fetch now) p).jobStatuses s = true)
        ∧ List.Forall₂ (fun s s' => terminalB s = true → s' = s)
            p.submissions (keys.foldl (processJob maxRetries k8s fetch now) p).submissions) := by
  intro keys
  induction keys with
  | nil =>
      intro p h1 h2 _ _
      exact ⟨h1, h2, List.forall₂_same.mpr fun _ _ _ => rfl⟩
  | cons j keys ih =>
      intro p h1 h2 h3 h4
      obtain ⟨st0, hjob, hact⟩ := h4 j (List.mem_cons_self j keys)
      obtain ⟨q1, q2, q3, q4⟩ :=
        processJob_stepOk maxRetries k8s fetch now p j st0 h1 h2 hjob hact
      rw [List.foldl_cons]
      have hnc := List.nodup_cons.mp h3
      have hact' : ∀ k ∈ keys,
          ∃ st, List.lookup k (processJob maxRetries k8s fetch now p j).jobStatuses = some st
            ∧ activeStatuses.contains st = true := by
        intro k hk
        obtain ⟨st, hl, ha⟩ := h4 k (List.mem_cons_of_mem j hk)
        have hne : k ≠ j := fun he => hnc.1 (he ▸ hk)
        exact ⟨st, (q4 k hne).trans hl, ha⟩
      obtain ⟨r1, r2, r3⟩ := ih (processJob maxRetries k8s fetch now p j) q1 q2 hnc.2 hact'
      exact ⟨r1, r2, forall₂_frame_trans q3 r3⟩

/-- One reconciliation tick preserves well-formedness and freezes
terminal submissions. -/
theorem tick_wf_frame (maxRetries : ℕ) (k8s : String → String)
    (fetch : String → Option MetricsRec) (now : ℕ) (p : Prob) (hWf : Wf p) :
    Wf (tick maxRetries k8s fetch now p)
      ∧ List.Forall₂ (fun s s' => terminalB s = true → s' = s)
          p.submissions (tick maxRetries k8s fetch now p).submissions := by
  obtain ⟨hnd, hcoh⟩ := hWf
  have hsub : ((p.jobStatuses.filter fun e => activeStatuses.contains e.2).map Prod.fst).Sublist
      (p.jobStatuses.map Prod.fst) :=
    (List.filter_sublist p.jobStatuses).map Prod.fst
  have hkeys : ((p.jobStatuses.filter fun e => activeStatuses.contains e.2).map Prod.fst).Nodup :=
    hnd.sublist hsub
  have hact0 : ∀ k ∈ (p.jobStatuses.filter fun e => activeStatuses.contains e.2).map Prod.fst,
      ∃ st, List.lookup k p.jobStatuses = some st ∧ activeStatuses.contains st = true := by
    intro k hk
    obtain ⟨e, he, rfl⟩ := List.mem_map.mp hk
    have hmf := List.mem_filter.mp he
    exact ⟨e.2, lookup_eq_of_mem_nodup hmf.1 hnd, hmf.2⟩
  obtain ⟨r1, r2, r3⟩ :=
    foldl_processJob_frame maxRetries k8s fetch now
      ((p.jobStatuses.filter fun e => activeStatuses.contains e.2).map Prod.fst)
      p hnd hcoh hkeys hact0
  exact ⟨⟨r1, r2⟩, r3⟩

/-- Any run of reconciliation ticks from a well-formed state preserves
well-formedness and freezes terminal submissions. -/
theorem runTicks_wf_frame (maxRetries : ℕ)
    (steps : List ((String → String) × (String → Option MetricsRec) × ℕ)) :
    ∀ p : Prob, Wf p →
      Wf (runTicks maxRetries steps p)
        ∧ List.Forall₂ (fun s s' => terminalB s = true → s' = s)
            p.submissions (runTicks maxRetries steps p).submissions := by
  induction steps with
  | nil =>
      intro p hWf
      exact ⟨hWf, List.forall₂_same.mpr fun _ _ _ => rfl⟩
  | cons step steps ih =>
      intro p hWf
      obtain ⟨h1, h2⟩ := tick_wf_frame maxRetries step.1 step.2.1 step.2.2 p hWf
      obtain ⟨r1, r2⟩ := ih (tick maxRetries step.1 step.2.1 step.2.2 p) h1
      exact ⟨r1, forall₂_frame_trans h2 r2⟩

/-- C4: from any well-formed state (terminal submissions have
non-active job records — the coherence every reachable state enjoys,
since each branch that makes a submission terminal records a
non-active job status in the same step), a reconciliation tick — and
every later tick — leaves every field of every `evaluated` or `failed`
submission unchanged. -/
theorem monitor_terminal_frozen (maxRetries : ℕ)
    (steps : List ((String → String) × (String → Option MetricsRec) × ℕ))
    (p : Prob) (hWf : Wf p) :
    List.Forall₂ (fun s s' => (s.status = "evaluated" ∨ s.status = "failed") → s' = s)
      p.submissions (runTicks maxRetries steps p).submissions := by
  have h := (runTicks_wf_frame maxRetries steps p hWf).2
  refine h.imp ?_
  intro a b hb hor
  refine hb ?_
  rcases hor with h' | h' <;> simp [terminalB, h']

/-- Witness for `monitor_terminal_frozen`: two ticks over a problem
holding an evaluated submission leave it untouched. -/
theorem monitor_terminal_frozen_witness :
    Wf wfProb
    ∧ List.Forall₂ (fun s s' => (s.status = "evaluated" ∨ s.status = "failed") → s' = s)
        wfProb.submissions
        (runTicks 5 [(kQueued, storeAbsent, 0), (kUnknown, storeAbsent, 1)]
          wfProb).submissions :=
  ⟨⟨by decide, by decide⟩,
    monitor_terminal_frozen 5 [(kQueued, storeAbsent, 0), (kUnknown, storeAbsent, 1)]
      wfProb ⟨by decide, by decide⟩⟩

end EvalInGke
